import Mathlib

/-!
Monitor enumeration bindings (litfass).

Shallow embedding of `src/display.h`, `src/display.cc` (class-based binding)
and `src/displays.cc` (function-based binding).

* Win32 `LONG` values are carried as `Int`; the only arithmetic in the
  sources, the subtractions `right - left` and `bottom - top`, is performed
  by `subLONG`, which reduces the exact difference into the signed 32-bit
  range (two's complement).
* The C++ `std::vector<Display>` behind the `dwData` pointer and the v8 array
  behind the `Local<Array>` handle are passed explicitly through the
  callbacks (state passing).
* `EnumDisplayMonitors` is an operating-system call, not code of the
  repository; it is represented by an environment model driven by an
  `OsEnum` script.
-/

namespace Litfass

/-! ## Machine integers and Win32 data -/

/-- Win32 `LONG` (and `long` under the Windows ABI): a signed 32-bit integer,
carried as an `Int`. -/
abbrev LONG := Int

/-- Smallest `LONG`. -/
def LONG_MIN : Int := -2147483648

/-- Largest `LONG`. -/
def LONG_MAX : Int := 2147483647

/-- The integer `x` is representable as a `LONG`. -/
def fitsLONG (x : Int) : Prop := LONG_MIN ≤ x ∧ x ≤ LONG_MAX

instance (x : Int) : Decidable (fitsLONG x) := by
  unfold fitsLONG
  infer_instance

/-- Reduction of an exact integer into the signed 32-bit range. -/
def wrapLONG (x : Int) : LONG := (x + 2147483648) % 4294967296 - 2147483648

/-- The C expression `a - b` on two `LONG` operands: the exact difference
reduced into the `LONG` range (the result the Windows compilers produce when
the exact difference does not fit). -/
def subLONG (a b : LONG) : LONG := wrapLONG (a - b)

/-- Win32 `RECT`: four `LONG` fields. -/
structure RECT where
  left : LONG
  top : LONG
  right : LONG
  bottom : LONG
deriving DecidableEq, Repr

/-- A display monitor rectangle as the OS supplies it to the callback of
`EnumDisplayMonitors(NULL, NULL, ...)`: the bounding rectangle of one monitor
in virtual-screen coordinates, with `left ≤ right`, `top ≤ bottom` and both
extents representable as a `LONG`. -/
def isMonitorRect (r : RECT) : Prop :=
  r.left ≤ r.right ∧ r.top ≤ r.bottom ∧
  r.right - r.left ≤ LONG_MAX ∧ r.bottom - r.top ≤ LONG_MAX

instance (r : RECT) : Decidable (isMonitorRect r) := by
  unfold isMonitorRect
  infer_instance

/-- Script of one run of the operating system's monitor enumeration:
`rects` are the monitor rectangles it delivers to the callback, in order (as
long as the callback asks to continue), and `ok` is the `BOOL` it reports
once the last of them has been delivered. -/
structure OsEnum where
  rects : List RECT
  ok : Bool
deriving DecidableEq, Repr

/-- The loop of `EnumDisplayMonitors`: call `lpfnEnum` once per monitor,
threading the data behind `dwData`; a callback answering `FALSE` stops the
enumeration, which then reports `FALSE`. -/
def enumLoop {σ : Type} (ok : Bool) (lpfnEnum : RECT → σ → σ × Bool) :
    List RECT → σ → σ × Bool
  | [], dwData => (dwData, ok)
  | r :: rs, dwData =>
    match lpfnEnum r dwData with
    | (dwData1, true) => enumLoop ok lpfnEnum rs dwData1
    | (dwData1, false) => (dwData1, false)

/-- Environment model of the Win32 call
`EnumDisplayMonitors(NULL, NULL, lpfnEnum, dwData)`: returns the final data
behind `dwData` together with the `BOOL` result of the call. The monitor and
device-context handles handed to the callback are left out: neither callback
of the repository reads them. -/
def EnumDisplayMonitors {σ : Type} (os : OsEnum) (lpfnEnum : RECT → σ → σ × Bool)
    (dwData : σ) : σ × Bool :=
  enumLoop os.ok lpfnEnum os.rects dwData

/-- Instrumentation of a callback with a counter of its invocations. -/
def counting {σ : Type} (lpfnEnum : RECT → σ → σ × Bool) :
    RECT → σ × Nat → (σ × Nat) × Bool :=
  fun r st => (((lpfnEnum r st.1).1, st.2 + 1), (lpfnEnum r st.1).2)

/-! ## display.h / display.cc : class `DisplayInfo::Display` -/

/-- Class `Display` of `display.h`: four private `long` fields. -/
structure Display where
  left : LONG
  top : LONG
  width : LONG
  height : LONG
deriving DecidableEq, Repr

/-- Constructor `Display::Display(left, top, width, height)` (named `new`
here, the class name being taken by the structure). -/
def Display.new (left top width height : LONG) : Display :=
  ⟨left, top, width, height⟩

/-- Method `Display::getLeft()`: the returned value and the object after the
call (the method is not `const`, so the object is threaded through). -/
def Display.getLeft (this : Display) : LONG × Display := (this.left, this)

/-- Method `Display::getTop()`. -/
def Display.getTop (this : Display) : LONG × Display := (this.top, this)

/-- Method `Display::getWidth()`. -/
def Display.getWidth (this : Display) : LONG × Display := (this.width, this)

/-- Method `Display::getHeight()`. -/
def Display.getHeight (this : Display) : LONG × Display := (this.height, this)

/-- Member `std::vector<Display>::push_back`. -/
def push_back (v : List Display) (x : Display) : List Display := v ++ [x]

namespace display_cc

/-- Callback `MonitorEnumProc` of `display.cc`: `result` is the vector behind
`dwData`; returns the vector after the call and the `BOOL` answer. -/
def MonitorEnumProc (lprcMonitor : RECT) (result : List Display) : List Display × Bool :=
  (push_back result
      (Display.new lprcMonitor.left lprcMonitor.top
        (subLONG lprcMonitor.right lprcMonitor.left)
        (subLONG lprcMonitor.bottom lprcMonitor.top)),
   true)

end display_cc

/-- Static method `Display::getDisplays()`: a fresh local vector is filled by
the enumeration, whose `BOOL` result is discarded. -/
def Display.getDisplays (os : OsEnum) : List Display :=
  let displays : List Display := []
  (EnumDisplayMonitors os display_cc.MonitorEnumProc displays).1

/-! ## displays.cc : function `get` -/

/-- A v8 number created by `Nan::New` from a `LONG`. -/
abbrev JsNumber := Int

/-- A v8 object whose properties hold numbers: its own properties in
insertion order. -/
abbrev JsObject := List (String × JsNumber)

/-- A v8 array of objects; `none` is a hole. -/
abbrev JsArray := List (Option JsObject)

namespace Nan

/-- Call `Nan::New(value)` on a `LONG`: the number with the same value
(every `LONG` is exactly representable as a v8 number). -/
def New (value : LONG) : JsNumber := value

/-- Call `Nan::New<v8::Object>()`: an object without properties. -/
def NewObject : JsObject := []

/-- Call `Nan::New<v8::Array>()`: an array of length zero. -/
def NewArray : JsArray := []

/-- Call `Nan::Set(obj, key, value)` with a string key: overwrite the
property when present, else add it. -/
def Set (obj : JsObject) (key : String) (value : JsNumber) : JsObject :=
  if obj.any (fun p => p.1 == key) then
    obj.map (fun p => if p.1 == key then (key, value) else p)
  else
    obj ++ [(key, value)]

/-- Property read `obj[key]`. -/
def Get (obj : JsObject) (key : String) : Option JsNumber :=
  (obj.find? (fun p => p.1 == key)).map (fun p => p.2)

/-- Call `Nan::Set(arr, index, value)` with a `uint32_t` index: overwrite
the slot when it exists, else grow the array (leaving holes) up to it. -/
def SetIndex (arr : JsArray) (index : Nat) (value : JsObject) : JsArray :=
  if index < arr.length then
    arr.set index (some value)
  else
    arr ++ List.replicate (index - arr.length) none ++ [some value]

end Nan

/-- Method `v8::Array::Length()`. -/
def JsArray.Length (arr : JsArray) : Nat := arr.length

namespace displays_cc

/-- Callback `MonitorEnumProc` of `displays.cc`: `dwData` is the array behind
the handle; returns the array after the call and the `BOOL` answer. -/
def MonitorEnumProc (lprcMonitor : RECT) (dwData : JsArray) : JsArray × Bool :=
  let display : JsObject := Nan.NewObject
  let display := Nan.Set display "left" (Nan.New lprcMonitor.left)
  let display := Nan.Set display "top" (Nan.New lprcMonitor.top)
  let display := Nan.Set display "width" (Nan.New (subLONG lprcMonitor.right lprcMonitor.left))
  let display := Nan.Set display "height" (Nan.New (subLONG lprcMonitor.bottom lprcMonitor.top))
  let displays : JsArray := dwData
  (Nan.SetIndex displays (JsArray.Length displays) display, true)

/-- Function `get` (`NAN_METHOD(get)`): the value set as the return value. -/
def get (os : OsEnum) : JsArray :=
  let displays : JsArray := Nan.NewArray
  (EnumDisplayMonitors os MonitorEnumProc displays).1

end displays_cc

/-! ## Specification-side definitions -/

/-- The record the specification assigns to a rectangle:
`(left, top, width = right - left, height = bottom - top)`, the differences
taken in `LONG`. -/
def specRecord (r : RECT) : Display :=
  ⟨r.left, r.top, subLONG r.right r.left, subLONG r.bottom r.top⟩

/-- The same record with the differences taken in the integers. -/
def exactRecord (r : RECT) : Display :=
  ⟨r.left, r.top, r.right - r.left, r.bottom - r.top⟩

/-- The object the function-based binding is expected to build for a
rectangle: properties `left`, `top`, `width`, `height`, in this order. -/
def specObject (r : RECT) : JsObject :=
  [("left", r.left), ("top", r.top), ("width", subLONG r.right r.left),
   ("height", subLONG r.bottom r.top)]

/-- The four values read off a `Display` through its getters. -/
def readDisplay (d : Display) : LONG × LONG × LONG × LONG :=
  ((Display.getLeft d).1, (Display.getTop d).1, (Display.getWidth d).1, (Display.getHeight d).1)

/-- The four values read off an array slot through the properties `left`,
`top`, `width`, `height`; `none` when the slot is a hole or a property is
missing. -/
def readSlot (slot : Option JsObject) : Option (JsNumber × JsNumber × JsNumber × JsNumber) :=
  match slot with
  | none => none
  | some o =>
    match Nan.Get o "left", Nan.Get o "top", Nan.Get o "width", Nan.Get o "height" with
    | some l, some t, some w, some h => some (l, t, w, h)
    | _, _, _, _ => none

/-! ## Shared lemmas -/

theorem wrapLONG_of_fits (x : Int) (h : fitsLONG x) : wrapLONG x = x := by
  unfold fitsLONG LONG_MIN LONG_MAX at h
  unfold wrapLONG
  show (_ : Int) = _
  omega

theorem enumLoop_display (ok : Bool) (rects : List RECT) (acc : List Display) :
    enumLoop ok display_cc.MonitorEnumProc rects acc = (acc ++ rects.map specRecord, ok) := by
  induction rects generalizing acc with
  | nil => simp [enumLoop]
  | cons r rs ih =>
    simp [enumLoop, display_cc.MonitorEnumProc, push_back, ih, specRecord, Display.new]

theorem getDisplays_eq_map (os : OsEnum) :
    Display.getDisplays os = os.rects.map specRecord := by
  simp [Display.getDisplays, EnumDisplayMonitors, enumLoop_display]

theorem MonitorEnumProc_js (r : RECT) (acc : JsArray) :
    displays_cc.MonitorEnumProc r acc = (acc ++ [some (specObject r)], true) := by
  simp [displays_cc.MonitorEnumProc, Nan.SetIndex, JsArray.Length, Nan.Set, Nan.NewObject,
    Nan.New, specObject]

theorem enumLoop_js (ok : Bool) (rects : List RECT) (acc : JsArray) :
    enumLoop ok displays_cc.MonitorEnumProc rects acc =
      (acc ++ rects.map (fun r => some (specObject r)), ok) := by
  induction rects generalizing acc with
  | nil => simp [enumLoop]
  | cons r rs ih => simp [enumLoop, MonitorEnumProc_js, ih]

theorem get_eq_map (os : OsEnum) :
    displays_cc.get os = os.rects.map (fun r => some (specObject r)) := by
  simp [displays_cc.get, EnumDisplayMonitors, enumLoop_js, Nan.NewArray]

theorem readSlot_specObject (r : RECT) :
    readSlot (some (specObject r)) = some (readDisplay (specRecord r)) := by
  simp [readSlot, specObject, Nan.Get, readDisplay, specRecord, Display.getLeft,
    Display.getTop, Display.getWidth, Display.getHeight, List.find?]

theorem enumLoop_counting_display (ok : Bool) (rects : List RECT) (acc : List Display) (n : Nat) :
    enumLoop ok (counting display_cc.MonitorEnumProc) rects (acc, n) =
      ((acc ++ rects.map specRecord, n + rects.length), ok) := by
  induction rects generalizing acc n with
  | nil => simp [enumLoop]
  | cons r rs ih =>
    simp [enumLoop, counting, display_cc.MonitorEnumProc, push_back, ih, specRecord,
      Display.new]
    omega

/-! ## Claims -/

/-- C1: for every sequence of rectangles delivered by the OS (whatever the
final `BOOL`), `Display::getDisplays` returns exactly the list of records
`(left, top, right - left, bottom - top)` in visitation order; the two
differences are the exact integer differences whenever these fit in `LONG`;
and the single-monitor and dual-monitor examples evaluate as stated. -/
theorem C1_getDisplays_maps_rects :
    (∀ os : OsEnum, Display.getDisplays os = os.rects.map specRecord) ∧
    (∀ os : OsEnum,
      (∀ r ∈ os.rects, fitsLONG (r.right - r.left) ∧ fitsLONG (r.bottom - r.top)) →
      Display.getDisplays os = os.rects.map exactRecord) ∧
    (∀ ok : Bool, Display.getDisplays ⟨[⟨0, 0, 1920, 1080⟩], ok⟩ = [⟨0, 0, 1920, 1080⟩]) ∧
    (∀ ok : Bool,
      Display.getDisplays ⟨[⟨0, 0, 1920, 1080⟩, ⟨1920, 0, 3200, 1024⟩], ok⟩ =
        [⟨0, 0, 1920, 1080⟩, ⟨1920, 0, 1280, 1024⟩]) := by
  refine ⟨getDisplays_eq_map, ?_, ?_, ?_⟩
  · intro os h
    rw [getDisplays_eq_map]
    apply List.map_congr_left
    intro r hr
    obtain ⟨hw, hh⟩ := h r hr
    simp [specRecord, exactRecord, subLONG, wrapLONG_of_fits _ hw, wrapLONG_of_fits _ hh]
  · intro ok
    cases ok <;> decide
  · intro ok
    cases ok <;> decide

/-- Instance of C1 at one monitor placed left of the origin, whose extents fit
in `LONG`: the exact differences are returned. -/
theorem C1_getDisplays_maps_rects_witness :
    (∀ r ∈ [(⟨-1280, 0, 0, 1024⟩ : RECT)],
      fitsLONG (r.right - r.left) ∧ fitsLONG (r.bottom - r.top)) ∧
    Display.getDisplays ⟨[⟨-1280, 0, 0, 1024⟩], true⟩ =
      [(⟨-1280, 0, 0, 1024⟩ : RECT)].map exactRecord :=
  ⟨by decide, C1_getDisplays_maps_rects.2.1 ⟨[⟨-1280, 0, 0, 1024⟩], true⟩ (by decide)⟩

/-- C2 (as stated, refuted): when the OS delivers no rectangle and reports
failure (`FALSE`), both bindings return the empty list, the very value they
return for a successful enumeration that found no monitor. -/
theorem C2_failed_query_returns_empty_list :
    (EnumDisplayMonitors ⟨[], false⟩ display_cc.MonitorEnumProc []).2 = false ∧
    Display.getDisplays ⟨[], false⟩ = [] ∧
    Display.getDisplays ⟨[], false⟩ = Display.getDisplays ⟨[], true⟩ ∧
    (EnumDisplayMonitors ⟨[], false⟩ displays_cc.MonitorEnumProc Nan.NewArray).2 = false ∧
    displays_cc.get ⟨[], false⟩ = [] ∧
    displays_cc.get ⟨[], false⟩ = displays_cc.get ⟨[], true⟩ := by
  decide

/-- C2 (amended): the `BOOL` reported by the OS has no influence on what
either binding returns: for every delivered sequence, the value returned
when the OS reports failure is the value returned when it reports success,
although the enumeration call itself did report that status. -/
theorem C2_result_independent_of_os_status (rects : List RECT) (ok : Bool) :
    (EnumDisplayMonitors ⟨rects, ok⟩ display_cc.MonitorEnumProc []).2 = ok ∧
    (EnumDisplayMonitors ⟨rects, ok⟩ displays_cc.MonitorEnumProc Nan.NewArray).2 = ok ∧
    Display.getDisplays ⟨rects, ok⟩ = Display.getDisplays ⟨rects, true⟩ ∧
    displays_cc.get ⟨rects, ok⟩ = displays_cc.get ⟨rects, true⟩ := by
  simp [EnumDisplayMonitors, enumLoop_display, enumLoop_js, getDisplays_eq_map, get_eq_map]

/-- C3 (as stated, refuted): with two monitors attached, an enumeration that
delivers the first one and then reports failure makes both bindings return
the one-entry list of the monitor visited before the failure, which is not
the full list. -/
theorem C3_failure_returns_visited_part :
    (EnumDisplayMonitors ⟨[⟨0, 0, 1920, 1080⟩], false⟩ display_cc.MonitorEnumProc []).2 = false ∧
    Display.getDisplays ⟨[⟨0, 0, 1920, 1080⟩], false⟩ = [⟨0, 0, 1920, 1080⟩] ∧
    Display.getDisplays ⟨[⟨0, 0, 1920, 1080⟩], false⟩ ≠
      Display.getDisplays ⟨[⟨0, 0, 1920, 1080⟩, ⟨1920, 0, 3200, 1024⟩], true⟩ ∧
    displays_cc.get ⟨[⟨0, 0, 1920, 1080⟩], false⟩ =
      [some [("left", 0), ("top", 0), ("width", 1920), ("height", 1080)]] ∧
    displays_cc.get ⟨[⟨0, 0, 1920, 1080⟩], false⟩ ≠
      displays_cc.get ⟨[⟨0, 0, 1920, 1080⟩, ⟨1920, 0, 3200, 1024⟩], true⟩ := by
  decide

/-- C3 (amended): when the OS delivers the rectangles `visited` and then
reports failure, both bindings return one record per visited monitor: the
first `visited.length` entries of the list a complete, successful
enumeration of `visited ++ rest` returns. -/
theorem C3_failure_returns_records_of_visited (visited rest : List RECT) :
    Display.getDisplays ⟨visited, false⟩ = visited.map specRecord ∧
    Display.getDisplays ⟨visited, false⟩ =
      (Display.getDisplays ⟨visited ++ rest, true⟩).take visited.length ∧
    displays_cc.get ⟨visited, false⟩ = visited.map (fun r => some (specObject r)) ∧
    displays_cc.get ⟨visited, false⟩ =
      (displays_cc.get ⟨visited ++ rest, true⟩).take visited.length := by
  simp [getDisplays_eq_map, get_eq_map, List.take_append_eq_append_take]

/-- C4: for every enumeration whose rectangles are monitor rectangles as the
OS supplies them (`isMonitorRect`), whatever `BOOL` it reports, every record
returned by either binding has `width ≥ 0` and `height ≥ 0`, the width and
height being the values the callbacks compute as `right - left` and
`bottom - top` in `LONG`. -/
theorem C4_returned_extents_nonneg (os : OsEnum)
    (hrects : ∀ r ∈ os.rects, isMonitorRect r) :
    (∀ d ∈ Display.getDisplays os,
      0 ≤ (Display.getWidth d).1 ∧ 0 ≤ (Display.getHeight d).1) ∧
    (∀ slot ∈ displays_cc.get os, ∃ l t w h : JsNumber,
      readSlot slot = some (l, t, w, h) ∧ 0 ≤ w ∧ 0 ≤ h) := by
  have key : ∀ r ∈ os.rects, 0 ≤ subLONG r.right r.left ∧ 0 ≤ subLONG r.bottom r.top := by
    intro r hr
    obtain ⟨h1, h2, h3, h4⟩ := hrects r hr
    unfold LONG_MAX at h3 h4
    unfold LONG at h1 h2 h3 h4
    have hw : fitsLONG (r.right - r.left) := by
      unfold fitsLONG LONG_MIN LONG_MAX
      unfold LONG
      omega
    have hh : fitsLONG (r.bottom - r.top) := by
      unfold fitsLONG LONG_MIN LONG_MAX
      unfold LONG
      omega
    unfold subLONG
    rw [wrapLONG_of_fits _ hw, wrapLONG_of_fits _ hh]
    unfold LONG
    omega
  constructor
  · intro d hd
    rw [getDisplays_eq_map, List.mem_map] at hd
    obtain ⟨r, hr, rfl⟩ := hd
    simpa [specRecord, Display.getWidth, Display.getHeight] using key r hr
  · intro slot hs
    rw [get_eq_map, List.mem_map] at hs
    obtain ⟨r, hr, rfl⟩ := hs
    refine ⟨r.left, r.top, subLONG r.right r.left, subLONG r.bottom r.top, ?_, key r hr⟩
    rw [readSlot_specObject]
    simp [readDisplay, specRecord, Display.getLeft, Display.getTop, Display.getWidth,
      Display.getHeight]

/-- Instance of C4 on the dual-monitor layout followed by a monitor of zero
area. -/
theorem C4_returned_extents_nonneg_witness :
    (∀ r ∈ [(⟨0, 0, 1920, 1080⟩ : RECT), ⟨1920, 0, 3200, 1024⟩, ⟨-5, -7, -5, -7⟩],
      isMonitorRect r) ∧
    ((∀ d ∈ Display.getDisplays
        ⟨[⟨0, 0, 1920, 1080⟩, ⟨1920, 0, 3200, 1024⟩, ⟨-5, -7, -5, -7⟩], true⟩,
      0 ≤ (Display.getWidth d).1 ∧ 0 ≤ (Display.getHeight d).1) ∧
    (∀ slot ∈ displays_cc.get
        ⟨[⟨0, 0, 1920, 1080⟩, ⟨1920, 0, 3200, 1024⟩, ⟨-5, -7, -5, -7⟩], true⟩,
      ∃ l t w h : JsNumber, readSlot slot = some (l, t, w, h) ∧ 0 ≤ w ∧ 0 ≤ h)) :=
  ⟨by decide,
   C4_returned_extents_nonneg
     ⟨[⟨0, 0, 1920, 1080⟩, ⟨1920, 0, 3200, 1024⟩, ⟨-5, -7, -5, -7⟩], true⟩ (by decide)⟩

/-- C5: `Display::getDisplays` returns exactly one entry per visited monitor:
the callback is invoked once per delivered rectangle and the list has that
many entries, its entry `i` being the record of rectangle `i`; the list is
empty exactly when no monitor was visited; two identical rectangles give two
entries and a rectangle of zero area gives an entry. -/
theorem C5_one_entry_per_visited_monitor :
    (∀ os : OsEnum,
      (EnumDisplayMonitors os (counting display_cc.MonitorEnumProc) ([], 0)).1 =
        (Display.getDisplays os, os.rects.length)) ∧
    (∀ os : OsEnum, (Display.getDisplays os).length = os.rects.length) ∧
    (∀ (os : OsEnum) (i : Nat),
      (Display.getDisplays os)[i]? = (os.rects[i]?).map specRecord) ∧
    (∀ os : OsEnum, Display.getDisplays os = [] ↔ os.rects = []) ∧
    (∀ (r : RECT) (ok : Bool),
      Display.getDisplays ⟨[r, r], ok⟩ = [specRecord r, specRecord r]) ∧
    (∀ ok : Bool, Display.getDisplays ⟨[⟨0, 0, 1920, 1080⟩, ⟨0, 0, 1920, 1080⟩], ok⟩ =
      [⟨0, 0, 1920, 1080⟩, ⟨0, 0, 1920, 1080⟩]) ∧
    (∀ ok : Bool, Display.getDisplays ⟨[⟨5, 7, 5, 7⟩], ok⟩ = [⟨5, 7, 0, 0⟩]) := by
  refine ⟨?_, ?_, ?_, ?_, ?_, ?_, ?_⟩
  · intro os
    simp [EnumDisplayMonitors, enumLoop_counting_display, getDisplays_eq_map]
  · intro os
    simp [getDisplays_eq_map]
  · intro os i
    simp [getDisplays_eq_map]
  · intro os
    simp [getDisplays_eq_map]
  · intro r ok
    simp [getDisplays_eq_map]
  · intro ok
    cases ok <;> decide
  · intro ok
    cases ok <;> decide

/-- C6: the result of either binding is a function of the delivered sequence
of rectangles alone. Two calls on the same sequence return equal lists, hence
equal multisets of `(left, top, width, height)` tuples, and the result of the
later call has one entry per rectangle delivered to that call: nothing of
the earlier call is carried over. -/
theorem C6_same_configuration_same_result (os1 os2 : OsEnum) (h : os1.rects = os2.rects) :
    Display.getDisplays os2 = Display.getDisplays os1 ∧
    (((Display.getDisplays os2).map readDisplay : List _) : Multiset (LONG × LONG × LONG × LONG)) =
      ((Display.getDisplays os1).map readDisplay : List _) ∧
    (Display.getDisplays os2).length = os2.rects.length ∧
    displays_cc.get os2 = displays_cc.get os1 ∧
    (((displays_cc.get os2).map readSlot : List _) :
        Multiset (Option (JsNumber × JsNumber × JsNumber × JsNumber))) =
      ((displays_cc.get os1).map readSlot : List _) ∧
    (displays_cc.get os2).length = os2.rects.length := by
  simp [getDisplays_eq_map, get_eq_map, h]

/-- Instance of C6: a successful and a failed enumeration delivering the same
two rectangles. -/
theorem C6_same_configuration_same_result_witness :
    Display.getDisplays ⟨[⟨0, 0, 1920, 1080⟩, ⟨1920, 0, 3200, 1024⟩], false⟩ =
      Display.getDisplays ⟨[⟨0, 0, 1920, 1080⟩, ⟨1920, 0, 3200, 1024⟩], true⟩ ∧
    (Display.getDisplays ⟨[⟨0, 0, 1920, 1080⟩, ⟨1920, 0, 3200, 1024⟩], false⟩).length = 2 :=
  ⟨(C6_same_configuration_same_result
      ⟨[⟨0, 0, 1920, 1080⟩, ⟨1920, 0, 3200, 1024⟩], true⟩
      ⟨[⟨0, 0, 1920, 1080⟩, ⟨1920, 0, 3200, 1024⟩], false⟩ rfl).1,
   (C6_same_configuration_same_result
      ⟨[⟨0, 0, 1920, 1080⟩, ⟨1920, 0, 3200, 1024⟩], true⟩
      ⟨[⟨0, 0, 1920, 1080⟩, ⟨1920, 0, 3200, 1024⟩], false⟩ rfl).2.2.1⟩

/-- C7: for every enumeration the two bindings return lists of the same
length, and entry `i` of the function-based result is an object whose
properties `left`, `top`, `width`, `height` hold the values the getters
`getLeft`, `getTop`, `getWidth`, `getHeight` return on entry `i` of the
class-based result. -/
theorem C7_bindings_agree :
    (∀ os : OsEnum, (displays_cc.get os).length = (Display.getDisplays os).length) ∧
    (∀ os : OsEnum,
      (displays_cc.get os).map readSlot =
        (Display.getDisplays os).map (fun d => some (readDisplay d))) ∧
    (∀ (os : OsEnum) (i : Nat),
      ((displays_cc.get os)[i]?).map readSlot =
        ((Display.getDisplays os)[i]?).map (fun d => some (readDisplay d))) := by
  have hmap : ∀ os : OsEnum,
      (displays_cc.get os).map readSlot =
        (Display.getDisplays os).map (fun d => some (readDisplay d)) := by
    intro os
    rw [get_eq_map, getDisplays_eq_map, List.map_map, List.map_map]
    apply List.map_congr_left
    intro r _
    exact readSlot_specObject r
  refine ⟨?_, hmap, ?_⟩
  · intro os
    simp [get_eq_map, getDisplays_eq_map]
  · intro os i
    have := congrArg (fun l => l[i]?) (hmap os)
    simpa [List.getElem?_map] using this

/-- C8: a `Display` built by the constructor answers the four constructor
arguments through its getters; every getter leaves the object as it was, so
any further getter call answers the same; and an entry stored by
`getDisplays` is not altered by the rest of the enumeration. -/
theorem C8_display_is_fixed_at_construction :
    (∀ l t w h : LONG,
      (Display.getLeft (Display.new l t w h)).1 = l ∧
      (Display.getTop (Display.new l t w h)).1 = t ∧
      (Display.getWidth (Display.new l t w h)).1 = w ∧
      (Display.getHeight (Display.new l t w h)).1 = h) ∧
    (∀ d : Display,
      (Display.getLeft d).2 = d ∧ (Display.getTop d).2 = d ∧
      (Display.getWidth d).2 = d ∧ (Display.getHeight d).2 = d) ∧
    (∀ (r : RECT) (result : List Display),
      (display_cc.MonitorEnumProc r result).1.take result.length = result) ∧
    (∀ (visited rest : List RECT) (ok1 ok2 : Bool),
      (Display.getDisplays ⟨visited ++ rest, ok2⟩).take visited.length =
        Display.getDisplays ⟨visited, ok1⟩) := by
  refine ⟨?_, ?_, ?_, ?_⟩
  · intro l t w h
    simp [Display.getLeft, Display.getTop, Display.getWidth, Display.getHeight, Display.new]
  · intro d
    simp [Display.getLeft, Display.getTop, Display.getWidth, Display.getHeight]
  · intro r result
    simp [display_cc.MonitorEnumProc, push_back]
  · intro visited rest ok1 ok2
    simp [getDisplays_eq_map, List.take_append_eq_append_take]

/-- C9: one invocation of either callback on an accumulator of `n` entries
answers `TRUE`, yields an accumulator of `n + 1` entries whose first `n`
entries are the old ones in place and whose entry at index `n` is the new
record; hence the enumeration is never stopped by the callback: it is
invoked once per delivered rectangle and the call reports the status of the
OS. -/
theorem C9_callback_appends_one_and_continues :
    (∀ (r : RECT) (result : List Display),
      (display_cc.MonitorEnumProc r result).2 = true ∧
      (display_cc.MonitorEnumProc r result).1.length = result.length + 1 ∧
      (display_cc.MonitorEnumProc r result).1.take result.length = result ∧
      (display_cc.MonitorEnumProc r result).1[result.length]? =
        some (Display.new r.left r.top (subLONG r.right r.left) (subLONG r.bottom r.top))) ∧
    (∀ (r : RECT) (displays : JsArray),
      (displays_cc.MonitorEnumProc r displays).2 = true ∧
      (displays_cc.MonitorEnumProc r displays).1.length = displays.length + 1 ∧
      (displays_cc.MonitorEnumProc r displays).1.take displays.length = displays ∧
      (displays_cc.MonitorEnumProc r displays).1[displays.length]? =
        some (some (specObject r))) ∧
    (∀ (os : OsEnum) (result : List Display) (n : Nat),
      (EnumDisplayMonitors os (counting display_cc.MonitorEnumProc) (result, n)).1.2 =
        n + os.rects.length ∧
      (EnumDisplayMonitors os display_cc.MonitorEnumProc result).2 = os.ok) ∧
    (∀ (os : OsEnum) (displays : JsArray),
      (EnumDisplayMonitors os displays_cc.MonitorEnumProc displays).2 = os.ok) := by
  refine ⟨?_, ?_, ?_, ?_⟩
  · intro r result
    simp [display_cc.MonitorEnumProc, push_back]
  · intro r displays
    simp [MonitorEnumProc_js]
  · intro os result n
    simp [EnumDisplayMonitors, enumLoop_counting_display, enumLoop_display]
  · intro os displays
    simp [EnumDisplayMonitors, enumLoop_js]

/-- C10: the record either callback stores for a rectangle carries `left` and
`top` unchanged, and satisfies `left + width = right` and
`top + height = bottom` modulo `2^32`; each identity is exact in the integers
as soon as the corresponding extent fits in `LONG`. -/
theorem C10_rectangle_recoverable (r : RECT) (result : List Display) (displays : JsArray) :
    (∃ d : Display,
      (display_cc.MonitorEnumProc r result).1 = result ++ [d] ∧
      (Display.getLeft d).1 = r.left ∧ (Display.getTop d).1 = r.top ∧
      ((Display.getLeft d).1 + (Display.getWidth d).1) % 4294967296 = r.right % 4294967296 ∧
      ((Display.getTop d).1 + (Display.getHeight d).1) % 4294967296 = r.bottom % 4294967296 ∧
      (fitsLONG (r.right - r.left) → (Display.getLeft d).1 + (Display.getWidth d).1 = r.right) ∧
      (fitsLONG (r.bottom - r.top) →
        (Display.getTop d).1 + (Display.getHeight d).1 = r.bottom)) ∧
    (∃ (o : JsObject) (l t w h : JsNumber),
      (displays_cc.MonitorEnumProc r displays).1 = displays ++ [some o] ∧
      Nan.Get o "left" = some l ∧ Nan.Get o "top" = some t ∧
      Nan.Get o "width" = some w ∧ Nan.Get o "height" = some h ∧
      l = r.left ∧ t = r.top ∧
      (l + w) % 4294967296 = r.right % 4294967296 ∧
      (t + h) % 4294967296 = r.bottom % 4294967296 ∧
      (fitsLONG (r.right - r.left) → l + w = r.right) ∧
      (fitsLONG (r.bottom - r.top) → t + h = r.bottom)) := by
  have hw : (r.left + subLONG r.right r.left) % 4294967296 = r.right % 4294967296 := by
    unfold subLONG wrapLONG LONG
    omega
  have hh : (r.top + subLONG r.bottom r.top) % 4294967296 = r.bottom % 4294967296 := by
    unfold subLONG wrapLONG LONG
    omega
  have ew : fitsLONG (r.right - r.left) → r.left + subLONG r.right r.left = r.right := by
    intro h
    unfold subLONG
    rw [wrapLONG_of_fits _ h]
    unfold LONG
    omega
  have eh : fitsLONG (r.bottom - r.top) → r.top + subLONG r.bottom r.top = r.bottom := by
    intro h
    unfold subLONG
    rw [wrapLONG_of_fits _ h]
    unfold LONG
    omega
  constructor
  · refine ⟨Display.new r.left r.top (subLONG r.right r.left) (subLONG r.bottom r.top),
      ?_, ?_, ?_, ?_, ?_, ?_, ?_⟩
    · simp [display_cc.MonitorEnumProc, push_back]
    · rfl
    · rfl
    · exact hw
    · exact hh
    · exact ew
    · exact eh
  · refine ⟨specObject r, r.left, r.top, subLONG r.right r.left, subLONG r.bottom r.top,
      ?_, ?_, ?_, ?_, ?_, rfl, rfl, hw, hh, ew, eh⟩
    · simp [MonitorEnumProc_js]
    · simp [Nan.Get, specObject]
    · simp [Nan.Get, specObject]
    · simp [Nan.Get, specObject]
    · simp [Nan.Get, specObject]

/-- Instance of C10 at a monitor placed left of and above the origin, whose
extents fit in `LONG`: the exact identities hold for the stored record. -/
theorem C10_rectangle_recoverable_witness :
    fitsLONG ((⟨-1280, -24, 0, 1000⟩ : RECT).right - (⟨-1280, -24, 0, 1000⟩ : RECT).left) ∧
    fitsLONG ((⟨-1280, -24, 0, 1000⟩ : RECT).bottom - (⟨-1280, -24, 0, 1000⟩ : RECT).top) ∧
    ∃ d : Display,
      (display_cc.MonitorEnumProc ⟨-1280, -24, 0, 1000⟩ []).1 = [d] ∧
      (Display.getLeft d).1 + (Display.getWidth d).1 = 0 ∧
      (Display.getTop d).1 + (Display.getHeight d).1 = 1000 := by
  refine ⟨by decide, by decide, ?_⟩
  obtain ⟨d, h1, _, _, _, _, h6, h7⟩ :=
    (C10_rectangle_recoverable ⟨-1280, -24, 0, 1000⟩ [] []).1
  exact ⟨d, by simpa using h1, h6 (by decide), h7 (by decide)⟩

end Litfass
